import Mathlib

/-!
Verification of the SPMC broadcast ring buffer (`spmc.hpp`, `src/spmc.hpp`)
and the market-data hub built on top of it (`msgbus/market_data_hub.hpp`,
`msgbus/python_bindings.cpp`).

The C++ code is shallowly embedded: `uint32_t` values are natural numbers
reduced modulo `2^32` at each operation, the cast `int(x)` on a `uint32_t`
is `toInt32`, slot arrays are functions from ring index, and the sequential
behaviour of the writer and of a reader handle is modelled by pure state
passing.  Fallible Python callbacks are modelled in `Except`.
-/

namespace Spmc

/-- `2^32`, the modulus of the C++ `uint32_t` arithmetic used throughout. -/
def U32 : Nat := 4294967296

/-- `2^31`, the first `uint32` bit pattern that is negative as `int32`. -/
def I32H : Nat := 2147483648

/-- Reinterpret a `uint32` value as a signed 32-bit integer: the effect of
the C++ cast `int(x)` applied to a `uint32_t`. -/
def toInt32 (x : Nat) : Int :=
  if x % U32 < I32H then (x % U32 : Int) else (x % U32 : Int) - (U32 : Int)

/-- `uint32` subtraction `a - b` with wraparound modulo `2^32`. -/
def u32sub (a b : Nat) : Nat := (a % U32 + (U32 - b % U32)) % U32

/-- The readiness test of `SPMCQueue::Reader::read`:
`int(new_idx - next_idx) < 0` means the slot's data is not yet produced. -/
def notReady (new_idx next_idx : Nat) : Bool :=
  decide (toInt32 (u32sub new_idx next_idx) < 0)

/-- One slot of the ring: `struct Block { uint32_t idx = 0; T data; }`. -/
structure Block (T : Type) where
  idx : Nat
  data : T

/-- `SPMCQueue<T, CNT>`: the slot array `blks` plus the writer-owned
`write_idx`.  The array is modelled as a function from ring index; every
access in the source goes through `% CNT`, which the embedded operations
reproduce. -/
structure SPMCQueue (T : Type) (CNT : Nat) where
  blks : Nat → Block T
  write_idx : Nat

/-- A freshly constructed queue: every slot has `idx = 0` and the
default-constructed payload `d0`, and `write_idx = 0`. -/
def SPMCQueue.init (T : Type) (CNT : Nat) (d0 : T) : SPMCQueue T CNT :=
  { blks := fun _ => { idx := 0, data := d0 }, write_idx := 0 }

/-- `SPMCQueue::Reader`: the cursor `next_idx` (a `uint32`).  The `q`
pointer of the C++ struct is supplied explicitly to `read` below. -/
structure Reader (CNT : Nat) where
  next_idx : Nat

/-- `SPMCQueue::getReader`: a fresh handle with `next_idx = write_idx + 1`
(in `uint32` arithmetic). -/
def SPMCQueue.getReader {T : Type} {CNT : Nat} (q : SPMCQueue T CNT) : Reader CNT :=
  { next_idx := (q.write_idx + 1) % U32 }

/-- The outcome of one `read()` call: the returned payload view (`none`
for a null pointer), the reader afterwards, and the queue afterwards.
The C++ `read` only loads from the queue, never stores, so the embedded
`read` returns the queue unchanged in both branches; carrying it in the
result lets theorems state that explicitly. -/
structure ReadResult (T : Type) (CNT : Nat) where
  ret : Option T
  reader : Reader CNT
  queue : SPMCQueue T CNT

/-- `SPMCQueue::Reader::read`: load the seq of slot `next_idx % CNT`; if
`int(observed - next_idx) < 0` return null, else advance `next_idx` to
`observed + 1` and return a view of that slot's payload. -/
def Reader.read {T : Type} {CNT : Nat} (r : Reader CNT) (q : SPMCQueue T CNT) :
    ReadResult T CNT :=
  let blk := q.blks (r.next_idx % CNT)
  let new_idx := blk.idx
  if notReady new_idx r.next_idx then
    { ret := none, reader := r, queue := q }
  else
    { ret := some blk.data, reader := { next_idx := (new_idx + 1) % U32 }, queue := q }

/-- `SPMCQueue::write(writer)`: pre-increment `write_idx`, apply the
producer function to the payload of slot `write_idx % CNT` in place, then
store `write_idx` into that slot's seq. -/
def SPMCQueue.write {T : Type} {CNT : Nat} (q : SPMCQueue T CNT) (writer : T → T) :
    SPMCQueue T CNT :=
  let w := (q.write_idx + 1) % U32
  let i := w % CNT
  { blks := fun j => if j = i then { idx := w, data := writer (q.blks i).data } else q.blks j,
    write_idx := w }

/-- The ring state reached from a fresh queue by `k` successive writes,
the `s`-th write filling the payload with `fs s` applied to the slot's
previous contents. -/
def stateAfter (T : Type) (CNT : Nat) (d0 : T) (fs : Nat → T → T) : Nat → SPMCQueue T CNT
  | 0 => SPMCQueue.init T CNT d0
  | k + 1 => (stateAfter T CNT d0 fs k).write (fs (k + 1))

/-- The last write number in `1..k` that lands on ring slot `i`
(the largest `s ≤ k` with `s % CNT = i`), or `0` if there is none. -/
def lastSeq (CNT i : Nat) : Nat → Nat
  | 0 => 0
  | k + 1 => if (k + 1) % CNT = i then k + 1 else lastSeq CNT i k

theorem read_eq {T : Type} {CNT : Nat} (r : Reader CNT) (q : SPMCQueue T CNT) :
    r.read q =
      if notReady ((q.blks (r.next_idx % CNT)).idx) r.next_idx then
        ⟨none, r, q⟩
      else
        ⟨some ((q.blks (r.next_idx % CNT)).data),
         ⟨((q.blks (r.next_idx % CNT)).idx + 1) % U32⟩, q⟩ := rfl

theorem lastSeq_le (CNT i k : Nat) : lastSeq CNT i k ≤ k := by
  induction k with
  | zero => exact Nat.le_refl _
  | succ k ih =>
    simp only [lastSeq]
    split
    · exact Nat.le_refl _
    · exact Nat.le_succ_of_le ih

theorem lastSeq_mod (CNT i k : Nat) (h : lastSeq CNT i k ≠ 0) :
    lastSeq CNT i k % CNT = i := by
  induction k with
  | zero => exact absurd rfl h
  | succ k ih =>
    simp only [lastSeq] at h ⊢
    split
    · rename_i hp
      exact hp
    · rename_i hne
      rw [if_neg hne] at h
      exact ih h

theorem lastSeq_ge (CNT i k s : Nat) (h1 : 1 ≤ s) (h2 : s ≤ k) (h3 : s % CNT = i) :
    s ≤ lastSeq CNT i k := by
  induction k with
  | zero => omega
  | succ k ih =>
    simp only [lastSeq]
    split
    · omega
    · rename_i hne
      rcases Nat.lt_or_ge s (k + 1) with hlt | hge
      · exact ih (by omega)
      · exfalso
        have hs : s = k + 1 := by omega
        subst hs
        exact hne h3

theorem lastSeq_lb (CNT i k : Nat) (hCNT : 0 < CNT) :
    lastSeq CNT i k = 0 ∨ k < lastSeq CNT i k + CNT := by
  induction k with
  | zero => exact Or.inl rfl
  | succ k ih =>
    simp only [lastSeq]
    split
    · right; omega
    · rename_i hne
      rcases ih with h0 | hlt
      · exact Or.inl h0
      · by_cases hz : lastSeq CNT i k = 0
        · exact Or.inl hz
        · right
          rcases Nat.lt_or_ge (k + 1) (lastSeq CNT i k + CNT) with h | h
          · exact h
          · exfalso
            have heq : k + 1 = lastSeq CNT i k + CNT := by omega
            apply hne
            rw [heq, Nat.add_mod_right]
            exact lastSeq_mod CNT i k hz

theorem lastSeq_mono (CNT i k k2 : Nat) (h : k ≤ k2) :
    lastSeq CNT i k ≤ lastSeq CNT i k2 := by
  induction k2 with
  | zero =>
    have hk : k = 0 := by omega
    subst hk
    exact Nat.le_refl _
  | succ k2 ih =>
    rcases Nat.lt_or_ge k (k2 + 1) with hlt | hge
    · have hk : lastSeq CNT i k ≤ lastSeq CNT i k2 := ih (by omega)
      simp only [lastSeq]
      split
      · exact le_trans hk (le_trans (lastSeq_le CNT i k2) (by omega))
      · exact hk
    · have hk : k = k2 + 1 := by omega
      subst hk
      exact Nat.le_refl _

theorem lastSeq_eq_findGreatest (CNT i k : Nat) :
    lastSeq CNT i k = Nat.findGreatest (fun s => s % CNT = i) k := by
  induction k with
  | zero => rfl
  | succ k ih =>
    rw [Nat.findGreatest_succ]
    simp only [lastSeq, ih]

theorem lastSeq_one (k : Nat) : lastSeq 1 0 k = k := by
  induction k with
  | zero => rfl
  | succ k ih =>
    simp only [lastSeq]
    rw [if_pos (Nat.mod_one _)]

theorem stateAfter_write_idx (T : Type) (CNT : Nat) (d0 : T) (fs : Nat → T → T) (k : Nat) :
    (stateAfter T CNT d0 fs k).write_idx = k % U32 := by
  induction k with
  | zero =>
    show 0 = 0 % U32
    rw [Nat.zero_mod]
  | succ k ih =>
    show ((stateAfter T CNT d0 fs k).write_idx + 1) % U32 = (k + 1) % U32
    rw [ih]
    simp only [U32]
    omega

theorem stateAfter_idx (T : Type) (CNT : Nat) (d0 : T) (fs : Nat → T → T)
    (hdvd : CNT ∣ U32) (i k : Nat) :
    ((stateAfter T CNT d0 fs k).blks i).idx = lastSeq CNT i k % U32 := by
  induction k with
  | zero => simp [stateAfter, SPMCQueue.init, lastSeq]
  | succ k ih =>
    have hw2 : (((stateAfter T CNT d0 fs k).write_idx + 1) % U32) % CNT = (k + 1) % CNT := by
      rw [stateAfter_write_idx, Nat.mod_mod_of_dvd _ hdvd, Nat.add_mod,
        Nat.mod_mod_of_dvd _ hdvd, ← Nat.add_mod]
    have hwU : ((stateAfter T CNT d0 fs k).write_idx + 1) % U32 = (k + 1) % U32 := by
      rw [stateAfter_write_idx]
      simp only [U32]
      omega
    simp only [stateAfter, SPMCQueue.write, hwU, Nat.mod_mod_of_dvd _ hdvd]
    by_cases hcase : i = (k + 1) % CNT
    · have hl : lastSeq CNT i (k + 1) = k + 1 := by
        simp only [lastSeq]
        rw [if_pos hcase.symm]
      rw [if_pos hcase, hl]
    · have hne2 : ¬ (k + 1) % CNT = i := fun h => hcase h.symm
      have hl : lastSeq CNT i (k + 1) = lastSeq CNT i k := by
        simp only [lastSeq]
        rw [if_neg hne2]
      rw [if_neg hcase, hl]
      exact ih

theorem stateAfter_data (T : Type) (CNT : Nat) (d0 : T) (g : Nat → T)
    (hdvd : CNT ∣ U32) (i k : Nat) :
    ((stateAfter T CNT d0 (fun s _ => g s) k).blks i).data
      = if lastSeq CNT i k = 0 then d0 else g (lastSeq CNT i k) := by
  induction k with
  | zero => simp [stateAfter, SPMCQueue.init, lastSeq]
  | succ k ih =>
    have hw2 : (((stateAfter T CNT d0 (fun s _ => g s) k).write_idx + 1) % U32) % CNT
        = (k + 1) % CNT := by
      rw [stateAfter_write_idx, Nat.mod_mod_of_dvd _ hdvd, Nat.add_mod,
        Nat.mod_mod_of_dvd _ hdvd, ← Nat.add_mod]
    have hwU : ((stateAfter T CNT d0 (fun s _ => g s) k).write_idx + 1) % U32
        = (k + 1) % U32 := by
      rw [stateAfter_write_idx]
      simp only [U32]
      omega
    simp only [stateAfter, SPMCQueue.write, hwU, Nat.mod_mod_of_dvd _ hdvd]
    by_cases hcase : i = (k + 1) % CNT
    · have hl : lastSeq CNT i (k + 1) = k + 1 := by
        simp only [lastSeq]
        rw [if_pos hcase.symm]
      rw [if_pos hcase, hl, if_neg (Nat.succ_ne_zero k)]
    · have hne2 : ¬ (k + 1) % CNT = i := fun h => hcase h.symm
      have hl : lastSeq CNT i (k + 1) = lastSeq CNT i k := by
        simp only [lastSeq]
        rw [if_neg hne2]
      rw [if_neg hcase, hl]
      exact ih

theorem notReady_iff (a b : Nat) (h1 : -(I32H : Int) ≤ (a : Int) - (b : Int))
    (h2 : (a : Int) - (b : Int) < (I32H : Int)) :
    (notReady a b = true ↔ (a : Int) - (b : Int) < 0) := by
  simp only [notReady, decide_eq_true_eq, toInt32, u32sub, U32, I32H] at h1 h2 ⊢
  split <;> omega

theorem notReady_mod (a b : Nat) : notReady (a % U32) (b % U32) = notReady a b := by
  unfold notReady u32sub
  rw [Nat.mod_mod_of_dvd _ dvd_rfl, Nat.mod_mod_of_dvd _ dvd_rfl]

end Spmc

namespace Spmc

/-- C1: `read()` returns none exactly when the signed 32-bit difference
between the observed seq of slot `next_idx % CNT` and `next_idx` is
negative; otherwise it sets `next_idx` to `observed + 1` (uint32
arithmetic) and returns a view of that slot's payload.  The skip-ahead
drop of `observed - next_idx` records is exactly this jump of `next_idx`. -/
theorem read_none_iff_signed_neg {T : Type} {CNT : Nat} (r : Reader CNT)
    (q : SPMCQueue T CNT) :
    ((r.read q).ret = none ↔
        toInt32 (u32sub ((q.blks (r.next_idx % CNT)).idx) r.next_idx) < 0) ∧
    (¬ toInt32 (u32sub ((q.blks (r.next_idx % CNT)).idx) r.next_idx) < 0 →
        (r.read q).reader.next_idx = ((q.blks (r.next_idx % CNT)).idx + 1) % U32 ∧
        (r.read q).ret = some ((q.blks (r.next_idx % CNT)).data)) := by
  rw [read_eq]
  by_cases h : toInt32 (u32sub ((q.blks (r.next_idx % CNT)).idx) r.next_idx) < 0
  · rw [if_pos (by simpa [notReady] using h)]
    exact ⟨⟨fun _ => h, fun _ => rfl⟩, fun hc => absurd h hc⟩
  · rw [if_neg (by simpa [notReady] using h)]
    refine ⟨⟨fun hc => absurd hc (by simp), fun hc => absurd hc h⟩, fun _ => ⟨rfl, rfl⟩⟩

/-- Witness for C1 at a concrete ready state: one write into a fresh
4-slot queue of naturals, reader cursor at 1. -/
theorem read_none_iff_signed_neg_witness :
    (¬ toInt32 (u32sub ((((SPMCQueue.init Nat 4 0).write fun _ => 7).blks (1 % 4)).idx) 1) < 0) ∧
    ((Reader.mk 1 : Reader 4).read ((SPMCQueue.init Nat 4 0).write fun _ => 7)).ret = some 7 :=
  ⟨by decide,
   ((read_none_iff_signed_neg (Reader.mk 1 : Reader 4)
      ((SPMCQueue.init Nat 4 0).write fun _ => 7)).2 (by decide)).2⟩

/-- C2: `write` advances `write_idx` by exactly one (uint32 arithmetic),
applies the producer function exactly once, to the payload of slot
`write_idx % CNT` (the incremented index), then stores `write_idx` into
that slot's seq; from a fresh queue the first write stores sequence 1
into slot `1 % CNT`. -/
theorem write_blks {T : Type} {CNT : Nat} (q : SPMCQueue T CNT) (writer : T → T) (j : Nat) :
    (q.write writer).blks j
      = if j = (q.write_idx + 1) % U32 % CNT
        then { idx := (q.write_idx + 1) % U32,
               data := writer ((q.blks ((q.write_idx + 1) % U32 % CNT)).data) }
        else q.blks j := rfl

theorem write_effect {T T2 : Type} {CNT : Nat} (q : SPMCQueue T CNT) (writer : T → T)
    (d0 : T2) (w2 : T2 → T2) :
    (q.write writer).write_idx = (q.write_idx + 1) % U32 ∧
    ((q.write writer).blks ((q.write_idx + 1) % U32 % CNT)).data
        = writer ((q.blks ((q.write_idx + 1) % U32 % CNT)).data) ∧
    ((q.write writer).blks ((q.write_idx + 1) % U32 % CNT)).idx = (q.write_idx + 1) % U32 ∧
    (((SPMCQueue.init T2 CNT d0).write w2).blks (1 % CNT)).idx = 1 ∧
    ((SPMCQueue.init T2 CNT d0).write w2).write_idx = 1 := by
  have h1 : (0 + 1) % U32 = 1 := by
    simp only [U32]
  have h2 : ((SPMCQueue.init T2 CNT d0).write_idx + 1) % U32 = 1 := h1
  refine ⟨rfl, ?_, ?_, ?_, ?_⟩
  · rw [write_blks, if_pos rfl]
  · rw [write_blks, if_pos rfl]
  · rw [write_blks, h2, if_pos rfl]
  · exact h2

end Spmc

namespace Spmc

/-- C4: the signed-difference readiness test used by `read` classifies
"not yet produced" versus "ready" correctly across the 32-bit wraparound:
for true (unbounded) sequence values `a` (observed) and `b` (cursor) whose
difference `d` satisfies `-2^31 ≤ d < 2^31`, the test applied to their
uint32 reductions is negative exactly when `d < 0`. -/
theorem signed_test_wrap_correct (a b : Nat) (d : Int) (hd : d = (a : Int) - (b : Int))
    (h1 : -(I32H : Int) ≤ d) (h2 : d < (I32H : Int)) :
    (notReady (a % U32) (b % U32) = true ↔ d < 0) := by
  subst hd
  rw [notReady_mod]
  exact notReady_iff a b h1 h2

/-- Witness for C4 across the wrap boundary: true sequence values
`2^32 + 2` (observed) and `2^32 - 1` (cursor), difference `3`: the slot is
ready even though the stored uint32 values are `2` and `4294967295`. -/
theorem signed_test_wrap_correct_witness :
    ((3 : Int) = ((4294967298 : Nat) : Int) - ((4294967295 : Nat) : Int)) ∧
    (-(I32H : Int) ≤ 3) ∧ ((3 : Int) < (I32H : Int)) ∧
    (notReady (4294967298 % U32) (4294967295 % U32) = true ↔ (3 : Int) < 0) :=
  ⟨by decide, by decide, by decide,
   signed_test_wrap_correct 4294967298 4294967295 3 (by decide) (by decide) (by decide)⟩

/-- C10: when the readiness test fails, `read()` changes nothing: it
returns none, the reader keeps its `next_idx`, and the queue (every slot
of the ring) is unchanged, so a failed read can be retried identically. -/
theorem read_fail_noop {T : Type} {CNT : Nat} (r : Reader CNT) (q : SPMCQueue T CNT)
    (h : notReady ((q.blks (r.next_idx % CNT)).idx) r.next_idx = true) :
    r.read q = ⟨none, r, q⟩ := by
  rw [read_eq, if_pos h]

/-- Witness for C10: a fresh 4-slot queue, reader cursor at 1 (no data
yet): the read fails and leaves reader and queue untouched. -/
theorem read_fail_noop_witness :
    (notReady (((SPMCQueue.init Nat 4 0).blks ((1 : Nat) % 4)).idx) 1 = true) ∧
    (Reader.mk 1 : Reader 4).read (SPMCQueue.init Nat 4 0)
      = ⟨none, Reader.mk 1, SPMCQueue.init Nat 4 0⟩ :=
  ⟨by decide, read_fail_noop (Reader.mk 1) (SPMCQueue.init Nat 4 0) (by decide)⟩

/-- C3 (amended): per-slot seq values as the claim states them hold below
the 32-bit wrap: for every `k ≤ k2 < 2^32`, after `k` writes slot `i`
holds exactly the largest `s ≤ k` with `s % CNT = i` (`0` if none — i.e.
the values `i+1, i+1+CNT, i+1+2·CNT, …`), and seq is non-decreasing from
`k` to `k2` writes.  (At `k = 2^32` the uint32 seq field wraps, so the
unbounded-value reading of the claim fails; see the counterexample.) -/
theorem slot_seq_values_below_wrap (T : Type) (CNT : Nat) (d0 : T) (fs : Nat → T → T)
    (hdvd : CNT ∣ U32) (i k k2 : Nat) (hk : k ≤ k2) (hk2 : k2 < U32) :
    ((stateAfter T CNT d0 fs k).blks i).idx
        = Nat.findGreatest (fun s => s % CNT = i) k ∧
    ((stateAfter T CNT d0 fs k).blks i).idx ≤ ((stateAfter T CNT d0 fs k2).blks i).idx := by
  have e1 := stateAfter_idx T CNT d0 fs hdvd i k
  have e2 := stateAfter_idx T CNT d0 fs hdvd i k2
  have l1 : lastSeq CNT i k < U32 := lt_of_le_of_lt (le_trans (lastSeq_le _ _ _) hk) hk2
  have l2 : lastSeq CNT i k2 < U32 := lt_of_le_of_lt (lastSeq_le _ _ _) hk2
  rw [e1, e2, Nat.mod_eq_of_lt l1, Nat.mod_eq_of_lt l2]
  exact ⟨lastSeq_eq_findGreatest CNT i k, lastSeq_mono CNT i k k2 hk⟩

/-- Witness for C3 (amended) at CNT = 4, slot 1, after 3 then 5 writes. -/
theorem slot_seq_values_below_wrap_witness :
    ((4 : Nat) ∣ U32) ∧ ((3 : Nat) ≤ 5) ∧ ((5 : Nat) < U32) ∧
    (((stateAfter Nat 4 0 (fun s _ => s) 3).blks 1).idx
        = Nat.findGreatest (fun s => s % 4 = 1) 3 ∧
     ((stateAfter Nat 4 0 (fun s _ => s) 3).blks 1).idx
        ≤ ((stateAfter Nat 4 0 (fun s _ => s) 5).blks 1).idx) :=
  ⟨⟨1073741824, rfl⟩, by decide, by decide,
   slot_seq_values_below_wrap Nat 4 0 (fun s _ => s) ⟨1073741824, rfl⟩ 1 3 5
     (by decide) (by decide)⟩

/-- Counterexample to C3 as stated: with CNT = 1, at the 2^32-nd write the
slot's uint32 seq field wraps to 0: it no longer equals the largest
`s ≤ k` with `s % CNT = i` (which is `2^32`), and it has decreased
relative to the state one write earlier — so "monotonically non-decreasing
across the whole execution" fails. -/
theorem slot_seq_wrap_cex :
    ((stateAfter Nat 1 0 (fun s _ => s) U32).blks 0).idx
        ≠ Nat.findGreatest (fun s => s % 1 = 0) U32 ∧
    ((stateAfter Nat 1 0 (fun s _ => s) U32).blks 0).idx
        < ((stateAfter Nat 1 0 (fun s _ => s) (U32 - 1)).blks 0).idx := by
  have e1 := stateAfter_idx Nat 1 0 (fun s _ => s) (one_dvd _) 0 U32
  have e2 := stateAfter_idx Nat 1 0 (fun s _ => s) (one_dvd _) 0 (U32 - 1)
  rw [lastSeq_one, Nat.mod_self] at e1
  rw [lastSeq_one, Nat.mod_eq_of_lt (by simp only [U32]; omega)] at e2
  constructor
  · rw [e1, ← lastSeq_eq_findGreatest, lastSeq_one]
    simp only [U32]
    omega
  · rw [e1, e2]
    simp only [U32]
    omega

end Spmc

namespace Spmc

/-- C5: `getReader` returns a handle whose `next_idx` is the current
`write_idx` plus one (uint32 arithmetic), and a reader created after `k`
writes never observes a record written strictly before its creation: if
its (first) read at any later state (after `j ≥ k` writes) succeeds, the
returned record carries a write number of at least `k + 1`.  Payloads are
instantiated with the write number itself so that the returned record's
sequence number is its payload. -/
theorem reader_skips_history (CNT : Nat) (hdvd : CNT ∣ U32) (hCNT : 0 < CNT)
    (hsmall : CNT ≤ I32H) (k j p : Nat) (hkj : k ≤ j)
    (hread : (((stateAfter Nat CNT 0 (fun s _ => s) k).getReader).read
        (stateAfter Nat CNT 0 (fun s _ => s) j)).ret = some p) :
    k + 1 ≤ p ∧
    ∀ (T2 : Type) (q : SPMCQueue T2 CNT), q.getReader.next_idx = (q.write_idx + 1) % U32 := by
  refine ⟨?_, fun T2 q => rfl⟩
  have hI : I32H = 2147483648 := rfl
  have hU : U32 = 4294967296 := rfl
  have hnext : (stateAfter Nat CNT 0 (fun s _ => s) k).getReader.next_idx = (k + 1) % U32 := by
    show ((stateAfter Nat CNT 0 (fun s _ => s) k).write_idx + 1) % U32 = (k + 1) % U32
    rw [stateAfter_write_idx]
    simp only [U32]
    omega
  have hslot : (stateAfter Nat CNT 0 (fun s _ => s) k).getReader.next_idx % CNT
      = (k + 1) % CNT := by
    rw [hnext, Nat.mod_mod_of_dvd _ hdvd]
  have hidx : ((stateAfter Nat CNT 0 (fun s _ => s) j).blks ((k + 1) % CNT)).idx
      = lastSeq CNT ((k + 1) % CNT) j % U32 :=
    stateAfter_idx Nat CNT 0 (fun s _ => s) hdvd ((k + 1) % CNT) j
  have hdata : ((stateAfter Nat CNT 0 (fun s _ => s) j).blks ((k + 1) % CNT)).data
      = if lastSeq CNT ((k + 1) % CNT) j = 0 then 0 else lastSeq CNT ((k + 1) % CNT) j :=
    stateAfter_data Nat CNT 0 (fun x => x) hdvd ((k + 1) % CNT) j
  rw [read_eq, hslot, hidx, hnext, hdata] at hread
  rw [notReady_mod] at hread
  cases hNR : notReady (lastSeq CNT ((k + 1) % CNT) j) (k + 1) with
  | true =>
    rw [if_pos hNR] at hread
    exact absurd hread (by simp)
  | false =>
    rw [if_neg (by rw [hNR]; exact Bool.false_ne_true)] at hread
    have hp : (if lastSeq CNT ((k + 1) % CNT) j = 0 then 0
        else lastSeq CNT ((k + 1) % CNT) j) = p := by
      simpa using hread
    by_cases hz : lastSeq CNT ((k + 1) % CNT) j = 0
    · exfalso
      -- the slot was never written, so the read must have failed
      have hjk : j = k := by
        by_contra hne
        have := lastSeq_ge CNT ((k + 1) % CNT) j (k + 1) (by omega) (by omega) rfl
        omega
      have hkCNT : k + 1 ≤ CNT := by
        by_contra hge
        have hmod : (k + 1 - CNT) % CNT = (k + 1) % CNT := by
          have ha : k + 1 - CNT + CNT = k + 1 := by omega
          have hb := Nat.add_mod_right (k + 1 - CNT) CNT
          rw [ha] at hb
          exact hb.symm
        have := lastSeq_ge CNT ((k + 1) % CNT) j (k + 1 - CNT) (by omega) (by omega) hmod
        omega
      have hready : notReady 0 (k + 1) = true :=
        (notReady_iff 0 (k + 1) (by push_cast; omega) (by push_cast; omega)).mpr
          (by push_cast; omega)
      rw [hz] at hNR
      rw [hNR] at hready
      exact Bool.false_ne_true hready
    · rw [if_neg hz] at hp
      subst hp
      by_contra hlt
      push_neg at hlt
      -- the slot's record predates the reader: its write number is k + 1 - CNT,
      -- and the readiness test rejects it
      have hmod := lastSeq_mod CNT ((k + 1) % CNT) j hz
      have hlb := (lastSeq_lb CNT ((k + 1) % CNT) j hCNT).resolve_left hz
      have hle := lastSeq_le CNT ((k + 1) % CNT) j
      have hzero : (k + 1 - lastSeq CNT ((k + 1) % CNT) j) % CNT = 0 :=
        Nat.sub_mod_eq_zero_of_mod_eq hmod.symm
      have hdvd2 : CNT ∣ (k + 1 - lastSeq CNT ((k + 1) % CNT) j) :=
        Nat.dvd_of_mod_eq_zero hzero
      have hCNTle : CNT ≤ k + 1 - lastSeq CNT ((k + 1) % CNT) j :=
        Nat.le_of_dvd (by omega) hdvd2
      have heq : k + 1 = lastSeq CNT ((k + 1) % CNT) j + CNT := by omega
      have hready : notReady (lastSeq CNT ((k + 1) % CNT) j) (k + 1) = true :=
        (notReady_iff _ _ (by push_cast; omega) (by push_cast; omega)).mpr
          (by push_cast; omega)
      rw [hNR] at hready
      exact Bool.false_ne_true hready

/-- Witness for C5: CNT = 4, reader created on the fresh queue (k = 0),
one write later (j = 1) its read succeeds and returns record number 1. -/
theorem reader_skips_history_witness :
    ((4 : Nat) ∣ U32) ∧ ((0 : Nat) < 4) ∧ ((4 : Nat) ≤ I32H) ∧ ((0 : Nat) ≤ 1) ∧
    ((((stateAfter Nat 4 0 (fun s _ => s) 0).getReader).read
        (stateAfter Nat 4 0 (fun s _ => s) 1)).ret = some 1) ∧
    (0 + 1 ≤ 1) :=
  ⟨⟨1073741824, rfl⟩, by decide, by decide, by decide, by decide,
   (reader_skips_history 4 ⟨1073741824, rfl⟩ (by decide) (by decide) 0 1 1
      (by decide) (by decide)).1⟩

end Spmc

namespace Msgbus

/-- `enum class DataType { KLINE = 0, TRADE = 1, BOOK_L1 = 2 }`. -/
inductive DataType
  | KLINE
  | TRADE
  | BOOK_L1
  deriving DecidableEq

/-- K-line record (`struct Kline`); `open_p` is the C++ field `open`,
renamed because `open` is a Lean keyword.  C++ `double` is `Float`. -/
structure Kline where
  timestamp : Nat
  open_p : Float
  high : Float
  low : Float
  close : Float
  volume : Float
  symbol : String

/-- Trade record (`struct Trade`). -/
structure Trade where
  timestamp : Nat
  price : Float
  quantity : Float
  symbol : String
  is_buyer_maker : Bool

/-- Level-1 book record (`struct BookL1`). -/
structure BookL1 where
  timestamp : Nat
  bid_price : Float
  bid_quantity : Float
  ask_price : Float
  ask_quantity : Float
  symbol : String

/-- `using MarketData = std::variant<Kline, Trade, BookL1>`. -/
inductive MarketData
  | kline (k : Kline)
  | trade (t : Trade)
  | bookL1 (b : BookL1)

/-- `std::variant::index()`: 0 for Kline, 1 for Trade, 2 for BookL1
(declaration order). -/
def MarketData.index : MarketData → Nat
  | .kline _ => 0
  | .trade _ => 1
  | .bookL1 _ => 2

/-- `static_cast<DataType>(n)` for the in-range enum values 0, 1, 2. -/
def DataType.fromIdx : Nat → DataType
  | 0 => .KLINE
  | 1 => .TRADE
  | _ => .BOOK_L1

/-- `static_cast<DataType>(data_ptr->index())` in the consumer loop. -/
def MarketData.currentType (d : MarketData) : DataType :=
  DataType.fromIdx d.index

/-- A Python value as built by the bindings for a callback argument. -/
inductive PyVal
  | nat (n : Nat)
  | flt (x : Float)
  | str (s : String)
  | bool (b : Bool)

/-- A `py::dict` as built by the bindings: keys with Python values. -/
def PyDict := List (String × PyVal)

/-- The user's Python callback, called as `callback_(tag_string, dict)`.
It may raise (modelled in `Except`). -/
def RawPyCallback := String → PyDict → Except String Unit

/-- The hub-side callback type `PyCallback`
(`std::function<void(DataType, const void*)>`): the tag plus the record
the `void*` points at; it may raise. -/
def PyCallback := DataType → MarketData → Except String Unit

/-- The dict the bindings build for a Kline. -/
def klineDict (k : Kline) : PyDict :=
  [("timestamp", PyVal.nat k.timestamp), ("open", PyVal.flt k.open_p),
   ("high", PyVal.flt k.high), ("low", PyVal.flt k.low),
   ("close", PyVal.flt k.close), ("volume", PyVal.flt k.volume),
   ("symbol", PyVal.str k.symbol)]

/-- The dict the bindings build for a Trade. -/
def tradeDict (t : Trade) : PyDict :=
  [("timestamp", PyVal.nat t.timestamp), ("price", PyVal.flt t.price),
   ("quantity", PyVal.flt t.quantity), ("symbol", PyVal.str t.symbol),
   ("is_buyer_maker", PyVal.bool t.is_buyer_maker)]

/-- The dict the bindings build for a BookL1. -/
def bookL1Dict (b : BookL1) : PyDict :=
  [("timestamp", PyVal.nat b.timestamp), ("bid_price", PyVal.flt b.bid_price),
   ("bid_quantity", PyVal.flt b.bid_quantity), ("ask_price", PyVal.flt b.ask_price),
   ("ask_quantity", PyVal.flt b.ask_quantity), ("symbol", PyVal.str b.symbol)]

/-- The body of `PyCallbackWrapper::operator()`: the `switch` on the data
type that builds the dict and invokes the Python callback.  The
cross-tag cases cannot arise (the hub always passes the record's own
tag); they are mapped to a plain return. -/
def pyCallbackBody (cb : RawPyCallback) (t : DataType) (d : MarketData) :
    Except String Unit :=
  match t, d with
  | .KLINE, .kline k => cb "kline" (klineDict k)
  | .TRADE, .trade tr => cb "trade" (tradeDict tr)
  | .BOOK_L1, .bookL1 b => cb "book_l1" (bookL1Dict b)
  | _, _ => Except.ok ()

/-- `PyCallbackWrapper::operator()` with its `try`/`catch`: the body runs
inside a catch-all that converts a raised error into a printed log line.
The first component is what the caller (the consumer loop) observes —
always a normal return; the second is the printed log. -/
def pyCallbackWrapper (cb : RawPyCallback) (t : DataType) (d : MarketData) :
    Except String Unit × List String :=
  match pyCallbackBody cb t d with
  | .ok _ => (Except.ok (), [])
  | .error e => (Except.ok (), ["Error in callback: " ++ e])

/-- The callback the bindings install into the hub for a Python
subscriber: invoking the wrapper, whose return carries no exception. -/
def hubCallback (cb : RawPyCallback) : PyCallback :=
  fun t d => (pyCallbackWrapper cb t d).1

/-- The record-processing part of `MarketDataHub::consumer_thread`,
applied to the sequence of records the subscriber's reader yields while
`running` holds (empty reads merely sleep and retry, so they are not part
of the sequence).  Each record's tag is compared with the subscriber's
filter; on mismatch the loop continues without invoking the callback;
on match the record is copied and the callback invoked on the copy.
The returned list is the trace of callback invocations; the option is an
exception escaping the callback, which would propagate out of the loop
and terminate the consumer thread (there is no handler in
`consumer_thread` itself). -/
def consumer_run (target : DataType) (callback : PyCallback) :
    List MarketData → List (DataType × MarketData) × Option String
  | [] => ([], none)
  | d :: rest =>
    let current := d.currentType
    if current ≠ target then
      consumer_run target callback rest
    else
      match callback current d with
      | .ok _ =>
        let r := consumer_run target callback rest
        ((current, d) :: r.1, r.2)
      | .error e => ([(current, d)], some e)

/-- Modelled from the spec: the consumer loop "does not abort", "the
record that caused the failure is dropped, and the loop continues with
the next record" — i.e. every matching record is processed exactly once,
in order, regardless of callback failures. -/
def processedAll (target : DataType) (records : List MarketData) :
    List (DataType × MarketData) :=
  records.filterMap fun d =>
    if d.currentType = target then some (d.currentType, d) else none

/-- `struct Subscriber`: id, filter, callback, running flag and the
reader handle (through `reader_holder`).  The C++ thread handle is
represented by the `launchThread` event in the subscribe trace. -/
structure Subscriber where
  id : Nat
  data_type : DataType
  callback : PyCallback
  running : Bool
  reader : Spmc.Reader 512

/-- `class MarketDataHub`: the 512-slot ring of `MarketData`, the
subscriber table (`unordered_map` modelled as an association list; entry
position is immaterial) and the monotonic id counter. -/
structure MarketDataHub where
  queue : Spmc.SPMCQueue MarketData 512
  subscribers : List (Nat × Subscriber)
  next_subscriber_id : Nat

/-- A default-constructed Kline (the C++ `Kline()` constructor). -/
def Kline.initial : Kline :=
  { timestamp := 0, open_p := 0, high := 0, low := 0, close := 0, volume := 0, symbol := "" }

/-- A default-constructed hub: empty table, id counter 0, fresh queue
whose slots hold a default-constructed `MarketData` (a variant holding a
default `Kline`, the first alternative). -/
def MarketDataHub.init : MarketDataHub :=
  { queue := Spmc.SPMCQueue.init MarketData 512 (MarketData.kline Kline.initial),
    subscribers := [],
    next_subscriber_id := 0 }

/-- The observable steps of `MarketDataHub::subscribe`, in the order the
hub performs them. -/
inductive HubEvent
  | constructRecord (id : Nat)
  | obtainReader
  | setRunning
  | launchThread (id : Nat)
  | insertTable (id : Nat)
  deriving DecidableEq

/-- `MarketDataHub::subscribe`: allocate the id, construct the subscriber
record (`running = false`, default reader), obtain the reader handle from
the queue, set `running = true`, create the consumer thread, then insert
the record into the table and return the id.  The event list records the
order in which these steps happen in the source. -/
def MarketDataHub.subscribe (h : MarketDataHub) (data_type : DataType)
    (callback : PyCallback) : Nat × MarketDataHub × List HubEvent :=
  let sub_id := h.next_subscriber_id
  let sub0 : Subscriber :=
    { id := sub_id, data_type := data_type, callback := callback, running := false,
      reader := { next_idx := 0 } }
  let sub1 : Subscriber := { sub0 with reader := h.queue.getReader }
  let sub2 : Subscriber := { sub1 with running := true }
  (sub_id,
   { queue := h.queue,
     subscribers := (sub_id, sub2) :: h.subscribers,
     next_subscriber_id := sub_id + 1 },
   [HubEvent.constructRecord sub_id, HubEvent.obtainReader, HubEvent.setRunning,
    HubEvent.launchThread sub_id, HubEvent.insertTable sub_id])

/-- Modelled from the spec: "`subscribe` constructs the subscriber
record, obtains the reader handle, marks `running = true`, inserts into
the table, then launches the thread" — the step order the specification
asserts, for comparison with the order the source performs. -/
def specSubscribeOrder (id : Nat) : List HubEvent :=
  [HubEvent.constructRecord id, HubEvent.obtainReader, HubEvent.setRunning,
   HubEvent.insertTable id, HubEvent.launchThread id]

/-- `MarketDataHub::unsubscribe`: look the id up; if absent do nothing,
otherwise stop and join the thread and erase the entry. -/
def MarketDataHub.unsubscribe (h : MarketDataHub) (sub_id : Nat) : MarketDataHub :=
  match h.subscribers.lookup sub_id with
  | none => h
  | some _ =>
    { h with subscribers := h.subscribers.eraseP fun p => p.1 == sub_id }

/-- `MarketDataHub::subscriber_count`. -/
def MarketDataHub.subscriber_count (h : MarketDataHub) : Nat :=
  h.subscribers.length

end Msgbus

namespace Msgbus

theorem hubCallback_ok (cb : RawPyCallback) (t : DataType) (d : MarketData) :
    hubCallback cb t d = Except.ok () := by
  unfold hubCallback pyCallbackWrapper
  rcases pyCallbackBody cb t d with u | e
  · rfl
  · rfl

/-- C7: a runtime error raised by a subscriber's Python callback is
caught at the consumer-thread boundary (inside `PyCallbackWrapper`): for
every raw callback, including ones that raise on some records, the
consumer loop never terminates with an escaping exception, the failing
record is simply dropped (it is not retried), and every matching record
— including those after a failure — is processed exactly once, in
order. -/
theorem consumer_errors_contained (cb : RawPyCallback) (target : DataType)
    (records : List MarketData) :
    consumer_run target (hubCallback cb) records = (processedAll target records, none) := by
  induction records with
  | nil => rfl
  | cons d rest ih =>
    simp only [consumer_run, processedAll, List.filterMap_cons]
    by_cases hc : d.currentType = target
    · rw [if_neg (by simp [hc]), if_pos hc, hubCallback_ok, ih]
      simp [processedAll]
    · rw [if_pos hc, if_neg hc, ih]
      simp [processedAll]

/-- C8: the consumer loop never invokes the callback on a record whose
variant tag differs from the subscriber's filter: every entry in the
invocation trace (for an arbitrary, possibly raising, callback) carries
exactly the registered tag, and the record delivered has that tag. -/
theorem consumer_filter_correct (target : DataType) (callback : PyCallback)
    (records : List MarketData) :
    ∀ x ∈ (consumer_run target callback records).1,
      x.1 = target ∧ x.2.currentType = target := by
  induction records with
  | nil => intro x hx; exact absurd hx (List.not_mem_nil x)
  | cons d rest ih =>
    intro x hx
    simp only [consumer_run] at hx
    by_cases hc : d.currentType ≠ target
    · rw [if_pos hc] at hx
      exact ih x hx
    · rw [if_neg hc] at hx
      push_neg at hc
      rcases hm : callback d.currentType d with e | u
      · rw [hm] at hx
        rcases List.mem_cons.mp hx with hx1 | hx2
        · subst hx1
          exact ⟨hc, hc⟩
        · exact absurd hx2 (List.not_mem_nil x)
      · rw [hm] at hx
        rcases List.mem_cons.mp hx with hx1 | hx2
        · subst hx1
          exact ⟨hc, hc⟩
        · exact ih x hx2

/-- A concrete Trade record used by the hub witnesses. -/
def witnessTrade : Trade :=
  { timestamp := 0, price := 0, quantity := 0, symbol := "BTCUSDT", is_buyer_maker := false }

/-- Witness for C8: a Trade-filter subscriber processing one Trade
record: the single invocation carries the TRADE tag. -/
theorem consumer_filter_correct_witness :
    ((DataType.TRADE, MarketData.trade witnessTrade) ∈
      (consumer_run DataType.TRADE (fun _ _ => Except.ok ())
        [MarketData.trade witnessTrade]).1) ∧
    ((DataType.TRADE, MarketData.trade witnessTrade).1 = DataType.TRADE ∧
     (DataType.TRADE, MarketData.trade witnessTrade).2.currentType = DataType.TRADE) := by
  have hmem : (DataType.TRADE, MarketData.trade witnessTrade) ∈
      (consumer_run DataType.TRADE (fun _ _ => Except.ok ())
        [MarketData.trade witnessTrade]).1 := by
    simp [consumer_run, MarketData.currentType, MarketData.index, DataType.fromIdx]
  exact ⟨hmem, consumer_filter_correct DataType.TRADE (fun _ _ => Except.ok ())
    [MarketData.trade witnessTrade] (DataType.TRADE, MarketData.trade witnessTrade) hmem⟩

/-- Counterexample to C6 as stated: on a fresh hub, the subscribe step
trace produced by the source differs from the order the claim asserts
(insert into the table before launching the thread): the source creates
the consumer thread first and inserts the record into the table last. -/
theorem subscribe_order_cex :
    (MarketDataHub.init.subscribe DataType.TRADE (fun _ _ => Except.ok ())).2.2
      ≠ specSubscribeOrder 0 := by
  decide

/-- C6 (amended): `subscribe` constructs the subscriber record, obtains
the reader handle, sets `running = true`, then launches the consumer
thread, and only after that inserts the record into the subscriber table
(launch precedes insert — the new thread's first action re-looks itself
up under the hub mutex, which subscribe still holds, so it observes the
inserted record); the returned id is the current counter value, the
inserted record has the registered filter, callback, `running = true`
and a reader obtained from the hub's queue, and the counter advances by
one. -/
theorem subscribe_order_launch_before_insert (h : MarketDataHub) (t : DataType)
    (cb : PyCallback) :
    (h.subscribe t cb).2.2
      = [HubEvent.constructRecord h.next_subscriber_id, HubEvent.obtainReader,
         HubEvent.setRunning, HubEvent.launchThread h.next_subscriber_id,
         HubEvent.insertTable h.next_subscriber_id] ∧
    (h.subscribe t cb).1 = h.next_subscriber_id ∧
    (h.subscribe t cb).2.1.subscribers
      = (h.next_subscriber_id,
         { id := h.next_subscriber_id, data_type := t, callback := cb, running := true,
           reader := h.queue.getReader }) :: h.subscribers ∧
    (h.subscribe t cb).2.1.next_subscriber_id = h.next_subscriber_id + 1 :=
  ⟨rfl, rfl, rfl, rfl⟩

theorem lookup_cons_self (k : Nat) (v : Subscriber) (l : List (Nat × Subscriber)) :
    ((k, v) :: l).lookup k = some v := by
  rw [List.lookup_cons, beq_self_eq_true k]

theorem lookup_none_of_not_mem (l : List (Nat × Subscriber)) (i : Nat)
    (h : i ∉ l.map Prod.fst) : l.lookup i = none := by
  induction l with
  | nil => rfl
  | cons a l ih =>
    obtain ⟨k, v⟩ := a
    simp only [List.map_cons, List.mem_cons] at h
    push_neg at h
    rw [List.lookup_cons]
    have hik : (i == k) = false := by simpa using h.1
    rw [hik]
    exact ih h.2

theorem lookup_eraseP_self (l : List (Nat × Subscriber)) (i : Nat)
    (hnd : (l.map Prod.fst).Nodup) :
    (l.eraseP fun p => p.1 == i).lookup i = none := by
  induction l with
  | nil => rfl
  | cons a l ih =>
    obtain ⟨k, v⟩ := a
    simp only [List.map_cons, List.nodup_cons] at hnd
    by_cases ha : k = i
    · rw [List.eraseP_cons_of_pos (by simpa using ha)]
      exact lookup_none_of_not_mem l i (ha ▸ hnd.1)
    · rw [List.eraseP_cons_of_neg (by simpa using ha)]
      rw [List.lookup_cons]
      have hik : (i == k) = false := by
        simpa using fun he => ha he.symm
      rw [hik]
      exact ih hnd.2

/-- C9: `unsubscribe` of an id absent from the table is a no-op on the
whole hub state; double `unsubscribe` of the same id is a no-op (given
the table's keys are distinct, as the `unordered_map` guarantees); and
`subscribe` immediately followed by `unsubscribe` of the returned id
restores `subscriber_count` to its prior value. -/
theorem unsubscribe_noop_props (h : MarketDataHub) (sub_id : Nat) (t : DataType)
    (cb : PyCallback) (hkeys : (h.subscribers.map Prod.fst).Nodup) :
    (h.subscribers.lookup sub_id = none → h.unsubscribe sub_id = h) ∧
    (h.unsubscribe sub_id).unsubscribe sub_id = h.unsubscribe sub_id ∧
    ((h.subscribe t cb).2.1.unsubscribe (h.subscribe t cb).1).subscriber_count
        = h.subscriber_count := by
  have hnoop : ∀ (h2 : MarketDataHub), h2.subscribers.lookup sub_id = none →
      h2.unsubscribe sub_id = h2 := by
    intro h2 hnone
    unfold MarketDataHub.unsubscribe
    rw [hnone]
  refine ⟨hnoop h, ?_, ?_⟩
  · rcases hl : h.subscribers.lookup sub_id with _ | s
    · rw [hnoop h hl, hnoop h hl]
    · have h1 : h.unsubscribe sub_id
          = { h with subscribers := h.subscribers.eraseP fun p => p.1 == sub_id } := by
        unfold MarketDataHub.unsubscribe
        rw [hl]
      apply hnoop
      rw [h1]
      exact lookup_eraseP_self h.subscribers sub_id hkeys
  · have hl : ((h.subscribe t cb).2.1).subscribers.lookup (h.subscribe t cb).1
        = some { id := h.next_subscriber_id, data_type := t, callback := cb,
                 running := true, reader := h.queue.getReader } :=
      lookup_cons_self h.next_subscriber_id
        { id := h.next_subscriber_id, data_type := t, callback := cb,
          running := true, reader := h.queue.getReader } h.subscribers
    unfold MarketDataHub.unsubscribe
    rw [hl]
    show (((h.next_subscriber_id,
        { id := h.next_subscriber_id, data_type := t, callback := cb, running := true,
          reader := h.queue.getReader }) :: h.subscribers).eraseP
        fun p => p.1 == h.next_subscriber_id).length = h.subscribers.length
    rw [List.eraseP_cons_of_pos (by simp)]

/-- Witness for C9 on a concrete hub: the fresh hub with an empty table. -/
theorem unsubscribe_noop_props_witness :
    ((MarketDataHub.init.subscribers.map Prod.fst).Nodup) ∧
    (MarketDataHub.init.subscribers.lookup 5 = none →
      MarketDataHub.init.unsubscribe 5 = MarketDataHub.init) ∧
    (MarketDataHub.init.unsubscribe 5).unsubscribe 5 = MarketDataHub.init.unsubscribe 5 ∧
    ((MarketDataHub.init.subscribe DataType.KLINE (fun _ _ => Except.ok ())).2.1.unsubscribe
        (MarketDataHub.init.subscribe DataType.KLINE (fun _ _ => Except.ok ())).1).subscriber_count
      = MarketDataHub.init.subscriber_count :=
  ⟨List.nodup_nil,
   unsubscribe_noop_props MarketDataHub.init 5 DataType.KLINE (fun _ _ => Except.ok ())
     List.nodup_nil⟩

end Msgbus
